import Mathlib

/-!
Verification of the dir2txt incremental cache and debounced watch pipeline.

The definitions below are a shallow embedding of `lib/cache.js` (CacheManager,
processIncremental) and `lib/watcher.js` (FileWatcher debounce/stop logic,
parseDebounceOption).  JavaScript `Map` objects are modelled as
insertion-ordered association lists; the filesystem is an explicit record of
stat/read functions; timestamps are integers (epoch milliseconds — the code's
ISO-8601 strings round-trip to these); opaque JavaScript values flowing
through the relationships cache are modelled by `JVal`, which records only
what the code inspects about them: identity and truthiness.
-/

namespace Dir2txt

/-- Lookup in a JS `Map` (`map.get(k)`, `undefined` becomes `none`). -/
def mapGet {α : Type} (m : List (String × α)) (k : String) : Option α :=
  (m.find? (fun kv => kv.1 == k)).map (fun kv => kv.2)

/-- `map.has(k)`. -/
def mapHas {α : Type} (m : List (String × α)) (k : String) : Bool :=
  m.any (fun kv => kv.1 == k)

/-- `map.set(k, v)`: overwrite in place if the key exists, else append. -/
def mapSet {α : Type} (m : List (String × α)) (k : String) (v : α) : List (String × α) :=
  if mapHas m k then m.map (fun kv => if kv.1 == k then (k, v) else kv) else m ++ [(k, v)]

/-- `map.delete(k)`. -/
def mapDelete {α : Type} (m : List (String × α)) (k : String) : List (String × α) :=
  m.filter (fun kv => kv.1 != k)

/-- Result of `fs.stat`: modification time (epoch ms) and byte size. -/
structure FileStat where
  mtime : Int
  size : Nat
deriving DecidableEq, Repr

/-- The filesystem as seen by the cache: `stat` and `readFile`, each
returning `none` when the underlying call throws (missing file, EACCES...). -/
structure FS where
  stat : String → Option FileStat
  read : String → Option String

/-- An opaque JavaScript value as far as the cache code inspects it:
`jnull` is `null`/`undefined` (falsy), `jemptyMap` is a fresh `new Map()`
(truthy), `jval id t` is any other value with identity `id` and JS
truthiness `t`. -/
inductive JVal where
  | jnull
  | jemptyMap
  | jval (id : Nat) (isTruthy : Bool)
deriving DecidableEq, Repr

/-- JS truthiness of a `JVal`. -/
def JVal.truthy : JVal → Bool
  | .jnull => false
  | .jemptyMap => true
  | .jval _ t => t

/-- A `FileFingerprint` entry stored in `CacheManager.metadata`. -/
structure Fingerprint where
  hash : String
  size : Nat
  mtime : Int
  lastProcessed : Int
deriving DecidableEq, Repr

/-- A per-file snapshot entry: the caller-supplied payload plus `cachedAt`. -/
structure SnapshotEntry where
  data : JVal
  cachedAt : Int
deriving DecidableEq, Repr

/-- In-memory state of `CacheManager` (cache.js).  `relationships` starts as
`new Map()` (`JVal.jemptyMap`) in the constructor. -/
structure CacheManager where
  enabled : Bool
  metadata : List (String × Fingerprint)
  snapshot : List (String × SnapshotEntry)
  relationships : JVal
deriving Repr

/-- A fresh `new CacheManager(\x7b enabled \x7d)` with empty maps. -/
def CacheManager.init (enabled : Bool) : CacheManager :=
  { enabled := enabled, metadata := [], snapshot := [], relationships := .jemptyMap }

/-- Result of `getFileHash`: hash over `content + mtimeISO`, size, mtime,
content (cache.js lines 68-88); `none` when stat or read throws. -/
structure FileInfo where
  hash : String
  size : Nat
  mtime : Int
  content : String
deriving DecidableEq, Repr

/-- `CacheManager.getFileHash` (cache.js 68-88).  `digest` stands for the
SHA-256 hex digest function. -/
def getFileHash (fsys : FS) (digest : String → String) (p : String) : Option FileInfo :=
  match fsys.stat p with
  | none => none
  | some st =>
    match fsys.read p with
    | none => none
    | some content =>
      some { hash := digest (content ++ toString st.mtime)
             size := st.size
             mtime := st.mtime
             content := content }

/-- `CacheManager.hasFileChanged` (cache.js 93-111): disabled or uncached or
stat failure means changed; otherwise changed iff current mtime is strictly
greater than the cached one.  Only `fsys.stat` is consulted. -/
def hasFileChanged (cm : CacheManager) (fsys : FS) (p : String) : Bool :=
  if !cm.enabled then true
  else
    match mapGet cm.metadata p with
    | none => true
    | some cached =>
      match fsys.stat p with
      | none => true
      | some st => decide (cached.mtime < st.mtime)

/-- The `changed`/`new` accumulation loop of `getChangedFiles`
(cache.js 124-134), preserving input order. -/
def collectChanges (cm : CacheManager) (fsys : FS) : List String → List String × List String
  | [] => ([], [])
  | p :: rest =>
    let tail := collectChanges cm fsys rest
    if hasFileChanged cm fsys p then
      (p :: tail.1, if mapHas cm.metadata p then tail.2 else p :: tail.2)
    else tail

/-- The `ChangeSet` result of `getChangedFiles`. -/
structure ChangeSet where
  changed : List String
  new : List String
  deleted : List String
deriving DecidableEq, Repr

/-- `CacheManager.getChangedFiles` (cache.js 116-145). -/
def getChangedFiles (cm : CacheManager) (fsys : FS) (allFiles : List String) : ChangeSet :=
  if !cm.enabled then { changed := allFiles, new := allFiles, deleted := [] }
  else
    let cn := collectChanges cm fsys allFiles
    { changed := cn.1
      new := cn.2
      deleted := (cm.metadata.map Prod.fst).filter (fun k => !(allFiles.contains k)) }

/-- `CacheManager.updateFileCache` (cache.js 150-171): recompute the
fingerprint; bail out when the probe fails; store the snapshot payload only
when `data` is truthy.  `now` models `new Date()`. -/
def updateFileCache (cm : CacheManager) (fsys : FS) (digest : String → String) (now : Int)
    (p : String) (data : JVal) : CacheManager :=
  if !cm.enabled then cm
  else
    match getFileHash fsys digest p with
    | none => cm
    | some fi =>
      let fp : Fingerprint :=
        { hash := fi.hash, size := fi.size, mtime := fi.mtime, lastProcessed := now }
      let entry : SnapshotEntry := { data := data, cachedAt := now }
      let withMeta := { cm with metadata := mapSet cm.metadata p fp }
      if data.truthy then
        { withMeta with snapshot := mapSet withMeta.snapshot p entry }
      else withMeta

/-- `CacheManager.getCachedRelationships` (cache.js 194-197). -/
def getCachedRelationships (cm : CacheManager) : JVal :=
  if !cm.enabled then .jnull else cm.relationships

/-- In-memory effect of `CacheManager.cleanup` (cache.js 312-324); the
subsequent `saveMetadata`/`saveSnapshot` are disk I/O and do not touch the
in-memory maps. -/
def cleanup (cm : CacheManager) (deletedFiles : List String) : CacheManager :=
  if !cm.enabled || deletedFiles.isEmpty then cm
  else
    { cm with
      metadata := deletedFiles.foldl (fun m k => mapDelete m k) cm.metadata
      snapshot := deletedFiles.foldl (fun m k => mapDelete m k) cm.snapshot }

/-- One persisted cache section as found on disk: `missing` covers an
absent/unreadable/unparseable file (read or `JSON.parse` throws),
`noField` a parsed document whose expected field is absent or falsy,
`parsed` a document carrying the field. -/
inductive DiskSection (α : Type) where
  | missing
  | noField
  | parsed (a : α)

/-- The three independently persisted cache files (metadata.json,
snapshot.json, relationships.json), reduced to their payload fields. -/
structure Disk where
  metadataFiles : DiskSection (List (String × Fingerprint))
  snapshotFiles : DiskSection (List (String × SnapshotEntry))
  relationshipsData : DiskSection JVal

/-- `CacheManager.loadMetadata` (cache.js 223-235): on any load/parse error
reset `metadata` to an empty map; when parsed, replace it only if the
`files` field is present. -/
def loadMetadata (cm : CacheManager) (d : Disk) : CacheManager :=
  match d.metadataFiles with
  | .missing => { cm with metadata := [] }
  | .noField => cm
  | .parsed fps => { cm with metadata := fps }

/-- `CacheManager.loadSnapshot` (cache.js 260-271). -/
def loadSnapshot (cm : CacheManager) (d : Disk) : CacheManager :=
  match d.snapshotFiles with
  | .missing => { cm with snapshot := [] }
  | .noField => cm
  | .parsed entries => { cm with snapshot := entries }

/-- `CacheManager.loadRelationships` (cache.js 296-307): on error reset to
`new Map()`; when parsed, assign only if `data.relationships` is truthy. -/
def loadRelationships (cm : CacheManager) (d : Disk) : CacheManager :=
  match d.relationshipsData with
  | .missing => { cm with relationships := .jemptyMap }
  | .noField => cm
  | .parsed b => if b.truthy then { cm with relationships := b } else cm

/-- `CacheManager.initialize` (cache.js 46-63): no-op when disabled; if
creating the cache directory fails the store disables itself and loads
never run; otherwise the three sections are loaded independently. -/
def initializeStore (cm : CacheManager) (mkdirOk : Bool) (d : Disk) : CacheManager :=
  if !cm.enabled then cm
  else if !mkdirOk then { cm with enabled := false }
  else loadRelationships (loadSnapshot (loadMetadata cm d) d) d

/-- The literal snapshot payload `\x7b processed: true \x7d` passed by
`processIncremental` (cache.js 417): some truthy object. -/
def processedPayload : JVal := .jval 1 true

/-- Observable outcome of `processIncremental`: the returned value, the
cache state afterwards, and the argument lists of every `processor`
invocation, in order. -/
structure IncOutcome where
  result : JVal
  cache : CacheManager
  processorCalls : List (List String)

/-- `processIncremental` (cache.js 386-424).  The fast path returns
`cache.getCachedRelationships() || await processor([])`, modelled by the
truthiness test on the returned value. -/
def processIncremental (cm : CacheManager) (fsys : FS) (digest : String → String) (now : Int)
    (files : List String) (processor : List String → JVal) : IncOutcome :=
  if !cm.enabled then
    { result := processor files, cache := cm, processorCalls := [files] }
  else
    let cs := getChangedFiles cm fsys files
    if cs.changed.isEmpty && cs.deleted.isEmpty then
      let r := getCachedRelationships cm
      if r.truthy then { result := r, cache := cm, processorCalls := [] }
      else { result := processor [], cache := cm, processorCalls := [[]] }
    else
      let afterCleanup := cleanup cm cs.deleted
      let res := processor cs.changed
      let afterUpdate := cs.changed.foldl
        (fun c p => updateFileCache c fsys digest now p processedPayload) afterCleanup
      { result := res, cache := afterUpdate, processorCalls := [cs.changed] }

/-- A raw file-system event as delivered to `FileWatcher.handleFileChange`:
the chokidar event name (`add`/`change`/`unlink`) and the file path. -/
structure FileEvent where
  etype : String
  fpath : String
deriving DecidableEq, Repr

/-- Debounce state of one watched root (the `debounceTimers` entry for that
root, plus the observable history): `pending` is the armed timer — its fire
deadline and the last event captured by the `setTimeout` closure; `fired`
records every `processChanges` invocation as (fire time, event); and
`totalChanges` is `watchStats.totalChanges`.  Timers are keyed per root
(watcher.js 497-518), so distinct roots evolve independently and one root's
state is modelled in isolation. -/
structure DebounceState where
  pending : Option (Int × FileEvent)
  fired : List (Int × FileEvent)
  totalChanges : Nat
deriving DecidableEq, Repr

/-- State before any event: no timer armed, nothing fired. -/
def initDebounce : DebounceState := { pending := none, fired := [], totalChanges := 0 }

/-- Wall clock reaching time `t`: an armed timer whose deadline has passed
fires, invoking `processChanges` with the captured last event. -/
def fireDue (st : DebounceState) (t : Int) : DebounceState :=
  match st.pending with
  | none => st
  | some fe =>
    if fe.1 ≤ t then { st with pending := none, fired := st.fired ++ [fe] }
    else st

/-- `FileWatcher.handleFileChange` at time `t` (watcher.js 497-518):
increment `totalChanges`, clear any pending timer for the root, arm a fresh
timer for `t + delay` capturing this event. -/
def handleFileChangeStep (delay : Int) (st : DebounceState) (t : Int) (e : FileEvent) :
    DebounceState :=
  { pending := some (t + delay, e), fired := st.fired, totalChanges := st.totalChanges + 1 }

/-- Deliver a time-ordered list of raw events for one root, letting the
clock advance to each arrival time before handling it. -/
def runEvents (delay : Int) (st : DebounceState) : List (Int × FileEvent) → DebounceState
  | [] => st
  | (t, e) :: rest => runEvents delay (handleFileChangeStep delay (fireDue st t) t e) rest

/-- The window closes: time runs past the last armed deadline, so a pending
timer fires. -/
def flushPending (st : DebounceState) : DebounceState :=
  match st.pending with
  | none => st
  | some fe => { st with pending := none, fired := st.fired ++ [fe] }

/-- `chainFrom delay t es` holds when the events `es` all arrive in order
after time `t` and each lands strictly inside the debounce window opened by
its predecessor (anchored at `t`). -/
def chainFrom (delay : Int) (t : Int) : List (Int × FileEvent) → Bool
  | [] => true
  | (t2, _) :: rest => (decide (t ≤ t2) && decide (t2 < t + delay)) && chainFrom delay t2 rest

/-- Last element of a timed event list, with default `d`. -/
def lastEv (d : Int × FileEvent) : List (Int × FileEvent) → Int × FileEvent
  | [] => d
  | x :: xs => lastEv x xs

/-- The two `Map`s of `FileWatcher` that `stopWatching` manipulates
(watcher.js 389-391): root path to watcher handle and root path to debounce
timer handle; handles are opaque identifiers. -/
structure WatcherMaps where
  watchers : List (String × Nat)
  debounceTimers : List (String × Nat)
deriving DecidableEq, Repr

/-- `FileWatcher.stopWatching` (watcher.js 757-783): the guard is
`watchPath && this.watchers.has(watchPath)`, so a null root OR a root with
no current watcher falls into the stop-all branch, which closes every
watcher and clears both maps. -/
def stopWatching (w : WatcherMaps) (root : Option String) : WatcherMaps :=
  match root with
  | some r =>
    if mapHas w.watchers r then
      { watchers := mapDelete w.watchers r, debounceTimers := mapDelete w.debounceTimers r }
    else { watchers := [], debounceTimers := [] }
  | none => { watchers := [], debounceTimers := [] }

/-- The two configuration flags consulted by the smart-diff branch of
`FileWatcher.processChanges`. -/
structure WatchCfg where
  incremental : Bool
  smartDiff : Bool
deriving DecidableEq, Repr

/-- The file-selection logic of `FileWatcher.processChanges`
(watcher.js 538-552): the value computed here is exactly the `filesToProcess`
argument handed to `generateOutput` (watcher.js 559).
`lastGeneratedFiles` is the last known file set, `currentFiles` the freshly
enumerated list. -/
def selectFilesToProcess (cfg : WatchCfg) (lastGeneratedFiles : List String)
    (currentFiles : List String) : List String :=
  if cfg.incremental && cfg.smartDiff then
    let newFiles := currentFiles.filter (fun f => !(lastGeneratedFiles.contains f))
    let removedFiles := lastGeneratedFiles.filter (fun f => !(currentFiles.contains f))
    if newFiles.length > 0 || removedFiles.length > 0 then
      currentFiles
    else
      currentFiles
  else currentFiles

/-- Numeric value of a digit string, as `parseInt(s, 10)` computes it. -/
def digitsVal (cs : List Char) : Nat :=
  cs.foldl (fun n c => n * 10 + (c.toNat - '0'.toNat)) 0

/-- `parseDebounceOption` (watcher.js 810-822).  `none` models an
`undefined` argument; the empty string is falsy, so both default to 1000.
The regex `(\d+)(ms|s)?` anchored on both sides is modelled by splitting
the maximal leading digit run (`ms`/`s` contain no digits, so the greedy
digit group never backtracks). -/
def parseDebounceOption (s : Option String) : Except String Nat :=
  match s with
  | none => .ok 1000
  | some str =>
    if str.isEmpty then .ok 1000
    else if (str.toList.takeWhile Char.isDigit).isEmpty then
      .error ("Invalid debounce format: " ++ str ++ ". Use formats like \"500ms\", \"2s\", or \"1000\"")
    else if (str.toList.dropWhile Char.isDigit).isEmpty then
      .ok (digitsVal (str.toList.takeWhile Char.isDigit))
    else if str.toList.dropWhile Char.isDigit = ['m', 's'] then
      .ok (digitsVal (str.toList.takeWhile Char.isDigit))
    else if str.toList.dropWhile Char.isDigit = ['s'] then
      .ok (digitsVal (str.toList.takeWhile Char.isDigit) * 1000)
    else
      .error ("Invalid debounce format: " ++ str ++ ". Use formats like \"500ms\", \"2s\", or \"1000\"")

/-- Does `parseDebounceOption` report success? -/
def exceptIsOk {ε α : Type} : Except ε α → Bool
  | .ok _ => true
  | .error _ => false

/-- The claim-side change predicate, written from the spec's words: a file
counts as changed iff no prior fingerprint exists, or the stat probe fails,
or the current mtime is strictly greater than the cached mtime. -/
def specChangedByMtime (cm : CacheManager) (statFn : String → Option FileStat) (p : String) :
    Bool :=
  match mapGet cm.metadata p, statFn p with
  | none, _ => true
  | some _, none => true
  | some fp, some st => decide (fp.mtime < st.mtime)

/-! Helper lemmas about the embedded operations. -/

/-- Paths reported as changed by the accumulation loop come from the input list. -/
lemma collectChanges_changed_subset (cm : CacheManager) (fsys : FS) :
    ∀ (l : List String) (p : String), p ∈ (collectChanges cm fsys l).1 → p ∈ l := by
  intro l
  induction l with
  | nil => intro p hp; simp [collectChanges] at hp
  | cons q rest ih =>
    intro p hp
    simp only [collectChanges] at hp
    by_cases hq : hasFileChanged cm fsys q
    · simp [hq] at hp
      rcases hp with h | h
      · simp [h]
      · exact List.mem_cons_of_mem _ (ih p h)
    · simp [hq] at hp
      exact List.mem_cons_of_mem _ (ih p hp)

/-- Paths reported as new by the accumulation loop come from the input list. -/
lemma collectChanges_new_subset (cm : CacheManager) (fsys : FS) :
    ∀ (l : List String) (p : String), p ∈ (collectChanges cm fsys l).2 → p ∈ l := by
  intro l
  induction l with
  | nil => intro p hp; simp [collectChanges] at hp
  | cons q rest ih =>
    intro p hp
    simp only [collectChanges] at hp
    by_cases hq : hasFileChanged cm fsys q
    · by_cases hm : mapHas cm.metadata q
      · simp [hq, hm] at hp
        exact List.mem_cons_of_mem _ (ih p hp)
      · simp [hq, hm] at hp
        rcases hp with h | h
        · simp [h]
        · exact List.mem_cons_of_mem _ (ih p h)
    · simp [hq] at hp
      exact List.mem_cons_of_mem _ (ih p hp)

/-- Every path reported as new is also reported as changed. -/
lemma collectChanges_new_sub_changed (cm : CacheManager) (fsys : FS) :
    ∀ (l : List String) (p : String),
      p ∈ (collectChanges cm fsys l).2 → p ∈ (collectChanges cm fsys l).1 := by
  intro l
  induction l with
  | nil => intro p hp; simp [collectChanges] at hp
  | cons q rest ih =>
    intro p hp
    simp only [collectChanges] at hp ⊢
    by_cases hq : hasFileChanged cm fsys q
    · by_cases hm : mapHas cm.metadata q
      · simp [hq, hm] at hp ⊢
        exact Or.inr (ih p hp)
      · simp [hq, hm] at hp ⊢
        rcases hp with h | h
        · exact Or.inl h
        · exact Or.inr (ih p h)
    · simp [hq] at hp ⊢
      exact ih p hp

/-- Deleting a key leaves lookups of every other key unchanged. -/
lemma mapGet_mapDelete_ne {α : Type} (m : List (String × α)) (k k2 : String) (h : k2 ≠ k) :
    mapGet (mapDelete m k) k2 = mapGet m k2 := by
  induction m with
  | nil => rfl
  | cons kv m ih =>
    obtain ⟨k1, v⟩ := kv
    by_cases hk : k1 = k
    · subst hk
      have hne : (k1 == k2) = false := by
        simp only [beq_eq_false_iff_ne]
        exact fun hcontra => h hcontra.symm
      simp [mapDelete, mapGet, List.filter_cons, hne] at *
      simpa [mapDelete, mapGet] using ih
    · by_cases h2 : k1 = k2
      · subst h2
        simp [mapDelete, mapGet, List.filter_cons, bne, hk]
      · have hne : (k1 == k2) = false := by simpa using h2
        simp only [mapDelete, mapGet, List.filter_cons]
        by_cases hb : (k1 != k) = true
        · simp [hb, List.find?, hne]
          simpa [mapDelete, mapGet] using ih
        · simp [bne, hk] at hb

/-- Claim C4: with the cache store disabled, `getChangedFiles` degrades to
full processing: every input file is reported changed and new, and nothing
is reported deleted. -/
theorem getChangedFiles_disabled (cm : CacheManager) (fsys : FS) (files : List String)
    (h : cm.enabled = false) :
    getChangedFiles cm fsys files = { changed := files, new := files, deleted := [] } := by
  simp [getChangedFiles, h]

/-- Witness for C4 at a concrete disabled store and a non-empty file list. -/
theorem getChangedFiles_disabled_witness :
    getChangedFiles (CacheManager.init false)
      { stat := fun _ => none, read := fun _ => none } ["a.js", "b.js"] =
      { changed := ["a.js", "b.js"], new := ["a.js", "b.js"], deleted := [] } :=
  getChangedFiles_disabled (CacheManager.init false)
    { stat := fun _ => none, read := fun _ => none } ["a.js", "b.js"] (by rfl)

/-- Claim C3: for every file list the ChangeSet satisfies `new ⊆ changed`,
`deleted` is exactly the set of cached paths absent from the input list,
and deleted paths appear in neither `changed` nor `new`. -/
theorem changeset_invariants (cm : CacheManager) (fsys : FS) (files : List String)
    (henabled : cm.enabled = true) :
    (∀ p, p ∈ (getChangedFiles cm fsys files).new → p ∈ (getChangedFiles cm fsys files).changed)
    ∧ (∀ p, p ∈ (getChangedFiles cm fsys files).deleted ↔
        (p ∈ cm.metadata.map Prod.fst ∧ p ∉ files))
    ∧ (∀ p, p ∈ (getChangedFiles cm fsys files).deleted →
        p ∉ (getChangedFiles cm fsys files).changed
        ∧ p ∉ (getChangedFiles cm fsys files).new) := by
  have hif : (!cm.enabled) = false := by simp [henabled]
  refine ⟨?_, ?_, ?_⟩
  · intro p hp
    simp only [getChangedFiles, hif, Bool.false_eq_true, if_false] at hp ⊢
    exact collectChanges_new_sub_changed cm fsys files p hp
  · intro p
    simp only [getChangedFiles, hif, Bool.false_eq_true, if_false, List.mem_filter,
      Bool.not_eq_true', ← Bool.not_eq_true]
    constructor
    · rintro ⟨hmem, hcon⟩
      exact ⟨hmem, fun hin => hcon (by simpa [List.elem_iff] using hin)⟩
    · rintro ⟨hmem, hnin⟩
      refine ⟨hmem, fun hcon => hnin (by simpa [List.elem_iff] using hcon)⟩
  · intro p hp
    have hnin : p ∉ files := by
      simp only [getChangedFiles, hif, Bool.false_eq_true, if_false, List.mem_filter,
        Bool.not_eq_true', ← Bool.not_eq_true] at hp
      exact fun hin => hp.2 (by simpa [List.elem_iff] using hin)
    constructor
    · intro hc
      simp only [getChangedFiles, hif, Bool.false_eq_true, if_false] at hc
      exact hnin (collectChanges_changed_subset cm fsys files p hc)
    · intro hn
      simp only [getChangedFiles, hif, Bool.false_eq_true, if_false] at hn
      exact hnin (collectChanges_new_subset cm fsys files p hn)

/-- Witness for C3: a cached path absent from the input list is reported
deleted, at a concrete store and input. -/
theorem changeset_invariants_witness :
    "old.js" ∈ (getChangedFiles
      { enabled := true
        metadata := [("old.js", { hash := "h", size := 1, mtime := 0, lastProcessed := 0 })]
        snapshot := []
        relationships := .jemptyMap }
      { stat := fun _ => none, read := fun _ => none } ["a.js"]).deleted ↔
      ("old.js" ∈ ([("old.js",
          ({ hash := "h", size := 1, mtime := 0, lastProcessed := 0 } : Fingerprint))].map
            Prod.fst)
        ∧ "old.js" ∉ ["a.js"]) :=
  (changeset_invariants
    { enabled := true
      metadata := [("old.js", { hash := "h", size := 1, mtime := 0, lastProcessed := 0 })]
      snapshot := []
      relationships := .jemptyMap }
    { stat := fun _ => none, read := fun _ => none } ["a.js"] (by rfl)).2.1 "old.js"

/-- Claim C2: for an enabled store, `hasFileChanged` returns true exactly
when no prior fingerprint exists, or the stat probe fails, or the current
mtime is strictly greater than the cached mtime; it never reads file
content (it depends only on the stat function), and a path whose current
mtime equals the cached one answers false. -/
theorem hasFileChanged_mtime_contract (cm : CacheManager) (fs1 fs2 : FS) (p : String)
    (henabled : cm.enabled = true) (hstat : fs1.stat = fs2.stat) :
    hasFileChanged cm fs1 p = specChangedByMtime cm fs1.stat p
    ∧ hasFileChanged cm fs1 p = hasFileChanged cm fs2 p
    ∧ (∀ fp st, mapGet cm.metadata p = some fp → fs1.stat p = some st →
        st.mtime = fp.mtime → hasFileChanged cm fs1 p = false) := by
  refine ⟨?_, ?_, ?_⟩
  · cases hm : mapGet cm.metadata p with
    | none => simp [hasFileChanged, specChangedByMtime, henabled, hm]
    | some fp =>
      cases hs : fs1.stat p with
      | none => simp [hasFileChanged, specChangedByMtime, henabled, hm, hs]
      | some st => simp [hasFileChanged, specChangedByMtime, henabled, hm, hs]
  · simp [hasFileChanged, hstat]
  · intro fp st hm hs heq
    simp [hasFileChanged, henabled, hm, hs, heq]

/-- Witness for C2: a concrete enabled store where the cached mtime equals
the current mtime, so the file reports unchanged, independently of content. -/
theorem hasFileChanged_mtime_contract_witness :
    hasFileChanged
      { enabled := true
        metadata := [("a.js", { hash := "h", size := 3, mtime := 5, lastProcessed := 0 })]
        snapshot := []
        relationships := .jemptyMap }
      { stat := fun p => if p == "a.js" then some { mtime := 5, size := 3 } else none
        read := fun _ => some "new content" } "a.js" = false :=
  (hasFileChanged_mtime_contract
    { enabled := true
      metadata := [("a.js", { hash := "h", size := 3, mtime := 5, lastProcessed := 0 })]
      snapshot := []
      relationships := .jemptyMap }
    { stat := fun p => if p == "a.js" then some { mtime := 5, size := 3 } else none
      read := fun _ => some "new content" }
    { stat := fun p => if p == "a.js" then some { mtime := 5, size := 3 } else none
      read := fun _ => some "old content" }
    "a.js" (by rfl) (by rfl)).2.2
    { hash := "h", size := 3, mtime := 5, lastProcessed := 0 }
    { mtime := 5, size := 3 } (by rfl) (by rfl) (by rfl)

/-- Claim C5: during initialization a corrupt or unreadable
`relationships.json` alongside a valid `metadata.json` still loads the
fingerprints from `metadata.json` in full (and only resets the
relationships section), whatever the snapshot section holds. -/
theorem initializeStore_section_isolation (cm : CacheManager) (d : Disk)
    (fps : List (String × Fingerprint))
    (henabled : cm.enabled = true)
    (hmeta : d.metadataFiles = .parsed fps)
    (hrel : d.relationshipsData = .missing) :
    (initializeStore cm true d).metadata = fps
    ∧ (initializeStore cm true d).relationships = .jemptyMap := by
  cases hsnap : d.snapshotFiles with
  | missing =>
    simp [initializeStore, henabled, loadMetadata, loadSnapshot, loadRelationships,
      hmeta, hrel, hsnap]
  | noField =>
    simp [initializeStore, henabled, loadMetadata, loadSnapshot, loadRelationships,
      hmeta, hrel, hsnap]
  | parsed entries =>
    simp [initializeStore, henabled, loadMetadata, loadSnapshot, loadRelationships,
      hmeta, hrel, hsnap]

/-- Witness for C5 at a concrete fresh store and a disk whose relationships
section is corrupt while the metadata section holds one fingerprint. -/
theorem initializeStore_section_isolation_witness :
    (initializeStore (CacheManager.init true) true
      { metadataFiles := .parsed [("a.js", { hash := "h", size := 1, mtime := 2, lastProcessed := 3 })]
        snapshotFiles := .missing
        relationshipsData := .missing }).metadata =
      [("a.js", { hash := "h", size := 1, mtime := 2, lastProcessed := 3 })]
    ∧ (initializeStore (CacheManager.init true) true
      { metadataFiles := .parsed [("a.js", { hash := "h", size := 1, mtime := 2, lastProcessed := 3 })]
        snapshotFiles := .missing
        relationshipsData := .missing }).relationships = .jemptyMap :=
  initializeStore_section_isolation (CacheManager.init true)
    { metadataFiles := .parsed [("a.js", { hash := "h", size := 1, mtime := 2, lastProcessed := 3 })]
      snapshotFiles := .missing
      relationshipsData := .missing }
    [("a.js", { hash := "h", size := 1, mtime := 2, lastProcessed := 3 })]
    (by rfl) (by rfl) (by rfl)

/-- Claim C10: when the fingerprint probe fails (stat or read throws, so
`getFileHash` returns null), `updateFileCache` leaves both the metadata map
and the snapshot map completely unchanged. -/
theorem updateFileCache_probe_failure (cm : CacheManager) (fsys : FS)
    (digest : String → String) (now : Int) (p : String) (data : JVal)
    (herr : fsys.stat p = none ∨ fsys.read p = none) :
    (updateFileCache cm fsys digest now p data).metadata = cm.metadata
    ∧ (updateFileCache cm fsys digest now p data).snapshot = cm.snapshot := by
  have hnone : getFileHash fsys digest p = none := by
    rcases herr with h | h
    · simp [getFileHash, h]
    · cases hs : fsys.stat p with
      | none => simp [getFileHash, hs]
      | some st => simp [getFileHash, hs, h]
  by_cases he : cm.enabled
  · simp [updateFileCache, he, hnone]
  · simp [updateFileCache, he]

/-- Witness for C10: a concrete store and a path whose read fails; the
update is a no-op on both maps. -/
theorem updateFileCache_probe_failure_witness :
    (updateFileCache
      { enabled := true
        metadata := [("a.js", { hash := "h", size := 3, mtime := 5, lastProcessed := 0 })]
        snapshot := []
        relationships := .jemptyMap }
      { stat := fun _ => some { mtime := 9, size := 4 }, read := fun _ => none }
      (fun s => s) 7 "a.js" (.jval 1 true)).metadata =
      [("a.js", { hash := "h", size := 3, mtime := 5, lastProcessed := 0 })]
    ∧ (updateFileCache
      { enabled := true
        metadata := [("a.js", { hash := "h", size := 3, mtime := 5, lastProcessed := 0 })]
        snapshot := []
        relationships := .jemptyMap }
      { stat := fun _ => some { mtime := 9, size := 4 }, read := fun _ => none }
      (fun s => s) 7 "a.js" (.jval 1 true)).snapshot = [] :=
  updateFileCache_probe_failure
    { enabled := true
      metadata := [("a.js", { hash := "h", size := 3, mtime := 5, lastProcessed := 0 })]
      snapshot := []
      relationships := .jemptyMap }
    { stat := fun _ => some { mtime := 9, size := 4 }, read := fun _ => none }
    (fun s => s) 7 "a.js" (.jval 1 true) (Or.inr rfl)

/-- Claim C8: the smart-diff branch of `processChanges` never alters the
set of files handed to output generation — whatever the configuration, the
last-known set, and the outcome of the structural comparison, the selected
files are exactly the full current file list. -/
theorem smartDiff_selection_is_full_list (cfg : WatchCfg) (lastGeneratedFiles : List String)
    (currentFiles : List String) :
    selectFilesToProcess cfg lastGeneratedFiles currentFiles = currentFiles := by
  unfold selectFilesToProcess
  split
  · simp only []
    split <;> rfl
  · rfl

/-- The language of the debounce regex `(\d+)(ms|s)?` anchored at both
ends, written from the spec's words: a non-empty digit run optionally
followed by `ms` or `s`. -/
def matchesDebounceFormat (str : String) : Bool :=
  let digits := str.toList.takeWhile Char.isDigit
  let rest := str.toList.dropWhile Char.isDigit
  !digits.isEmpty && (rest.isEmpty || rest = ['m', 's'] || rest = ['s'])

/-- Claim C7: `parseDebounceOption` maps `"500ms"` to 500, `"2s"` to 2000,
`"1000"` to 1000, and empty or undefined input to 1000; every malformed
string (one outside the regex language, e.g. `"abc"`, `"500x"`) produces an
error rather than a value. -/
theorem parseDebounceOption_contract :
    parseDebounceOption (some "500ms") = .ok 500
    ∧ parseDebounceOption (some "2s") = .ok 2000
    ∧ parseDebounceOption (some "1000") = .ok 1000
    ∧ parseDebounceOption (some "") = .ok 1000
    ∧ parseDebounceOption none = .ok 1000
    ∧ exceptIsOk (parseDebounceOption (some "abc")) = false
    ∧ exceptIsOk (parseDebounceOption (some "500x")) = false
    ∧ (∀ str : String, str.isEmpty = false → matchesDebounceFormat str = false →
        exceptIsOk (parseDebounceOption (some str)) = false) := by
  refine ⟨by rfl, by rfl, by rfl, by rfl, by rfl, by rfl, by rfl, ?_⟩
  intro str hne hbad
  simp only [matchesDebounceFormat, Bool.and_eq_false_iff, Bool.not_eq_false',
    Bool.or_eq_false_iff, decide_eq_false_iff_not] at hbad
  show exceptIsOk (parseDebounceOption (some str)) = false
  unfold parseDebounceOption
  simp only []
  rw [if_neg (by rw [hne]; exact Bool.false_ne_true)]
  by_cases hd : (str.toList.takeWhile Char.isDigit).isEmpty = true
  · rw [if_pos hd]; rfl
  · rcases hbad with hdig | ⟨⟨hrest, hms⟩, hs⟩
    · exact absurd hdig hd
    · rw [if_neg hd, if_neg (by rw [hrest]; exact Bool.false_ne_true), if_neg hms, if_neg hs]
      rfl

/-- Witness for C7: the universal malformed-input branch applied at the
concrete malformed string `"abc"`. -/
theorem parseDebounceOption_contract_witness :
    exceptIsOk (parseDebounceOption (some "abc")) = false :=
  parseDebounceOption_contract.2.2.2.2.2.2.2 "abc" (by rfl) (by rfl)

/-- Inside one debounce window no armed timer fires: delivering each next
event before the pending deadline just re-arms the timer with that event,
so after the whole burst nothing has fired and the timer carries the last
event. -/
lemma runEvents_within_window (delay : Int) :
    ∀ (es : List (Int × FileEvent)) (t : Int) (e : FileEvent)
      (F : List (Int × FileEvent)) (c : Nat),
      chainFrom delay t es = true →
      runEvents delay { pending := some (t + delay, e), fired := F, totalChanges := c } es =
        { pending := some ((lastEv (t, e) es).1 + delay, (lastEv (t, e) es).2)
          fired := F
          totalChanges := c + es.length } := by
  intro es
  induction es with
  | nil => intro t e F c _; simp [runEvents, lastEv]
  | cons te rest ih =>
    intro t e F c hc
    obtain ⟨t2, e2⟩ := te
    simp only [chainFrom, Bool.and_eq_true, decide_eq_true_eq] at hc
    obtain ⟨⟨h1, h2⟩, h3⟩ := hc
    have hfire : ¬ (t + delay ≤ t2) := by omega
    simp only [runEvents, fireDue, hfire, if_false, handleFileChangeStep]
    rw [ih t2 e2 F (c + 1) h3]
    simp [lastEv, List.length_cons]
    omega

/-- Claim C6: any burst of `handleFileChange` calls for one root, each
arriving strictly inside the debounce window opened by its predecessor,
produces exactly one `processChanges` invocation once the window closes,
carrying the event type and path of the last event received; the raw-event
counter still counts every call. -/
theorem debounce_coalescing (delay t1 : Int) (e1 : FileEvent)
    (rest : List (Int × FileEvent)) (hchain : chainFrom delay t1 rest = true) :
    flushPending (runEvents delay initDebounce ((t1, e1) :: rest)) =
      { pending := none
        fired := [((lastEv (t1, e1) rest).1 + delay, (lastEv (t1, e1) rest).2)]
        totalChanges := rest.length + 1 } := by
  have h0 : runEvents delay initDebounce ((t1, e1) :: rest) =
      runEvents delay { pending := some (t1 + delay, e1), fired := [], totalChanges := 1 } rest := by
    simp [runEvents, initDebounce, fireDue, handleFileChangeStep]
  rw [h0, runEvents_within_window delay rest t1 e1 [] 1 hchain]
  simp [flushPending]
  omega

/-- Witness for C6: three rapid events inside a 100ms window with a 100ms
debounce coalesce into a single `processChanges` invocation carrying the
last event. -/
theorem debounce_coalescing_witness :
    flushPending (runEvents 100 initDebounce
      [(0, ⟨"change", "a.js"⟩), (30, ⟨"add", "b.js"⟩), (60, ⟨"change", "c.js"⟩)]) =
      { pending := none
        fired := [(160, ⟨"change", "c.js"⟩)]
        totalChanges := 3 } := by
  have h := debounce_coalescing 100 0 ⟨"change", "a.js"⟩
    [(30, ⟨"add", "b.js"⟩), (60, ⟨"change", "c.js"⟩)] (by decide)
  simpa [lastEv] using h

/-- Claim C1 counterexample: an enabled store whose ChangeSet is empty but
which never stored a relationships blob (the field still holds the
constructor's `new Map()`).  The fast path returns that empty map — a
truthy value — so the `|| processor([])` fallback never runs and the
result differs from `processor([])`, contradicting the claim's
"result of processor([]) when no cached blob exists". -/
theorem processIncremental_fast_path_counterexample :
    (getChangedFiles
      { enabled := true
        metadata := [("a.js", { hash := "h", size := 3, mtime := 5, lastProcessed := 0 })]
        snapshot := []
        relationships := .jemptyMap }
      { stat := fun p => if p == "a.js" then some { mtime := 5, size := 3 } else none
        read := fun _ => some "x" } ["a.js"]).changed = []
    ∧ (getChangedFiles
      { enabled := true
        metadata := [("a.js", { hash := "h", size := 3, mtime := 5, lastProcessed := 0 })]
        snapshot := []
        relationships := .jemptyMap }
      { stat := fun p => if p == "a.js" then some { mtime := 5, size := 3 } else none
        read := fun _ => some "x" } ["a.js"]).deleted = []
    ∧ (processIncremental
      { enabled := true
        metadata := [("a.js", { hash := "h", size := 3, mtime := 5, lastProcessed := 0 })]
        snapshot := []
        relationships := .jemptyMap }
      { stat := fun p => if p == "a.js" then some { mtime := 5, size := 3 } else none
        read := fun _ => some "x" }
      (fun s => s) 0 ["a.js"] (fun _ => JVal.jval 7 true)).processorCalls = []
    ∧ (processIncremental
      { enabled := true
        metadata := [("a.js", { hash := "h", size := 3, mtime := 5, lastProcessed := 0 })]
        snapshot := []
        relationships := .jemptyMap }
      { stat := fun p => if p == "a.js" then some { mtime := 5, size := 3 } else none
        read := fun _ => some "x" }
      (fun s => s) 0 ["a.js"] (fun _ => JVal.jval 7 true)).result ≠
        (fun _ => JVal.jval 7 true) ([] : List String) := by
  refine ⟨by decide, by decide, by decide, by decide⟩

/-- Claim C1 (amended): on the no-op fast path — enabled store, empty
`changed` and `deleted` — `processIncremental` returns the stored
relationships value (the loaded blob, or the constructor's empty map when
no blob was ever cached; both are truthy, so the `processor([])` fallback
is unreachable) and never invokes the processor at all. -/
theorem processIncremental_noop_fast_path (cm : CacheManager) (fsys : FS)
    (digest : String → String) (now : Int) (files : List String)
    (processor : List String → JVal)
    (henabled : cm.enabled = true)
    (hch : (getChangedFiles cm fsys files).changed = [])
    (hdel : (getChangedFiles cm fsys files).deleted = [])
    (htruthy : cm.relationships.truthy = true) :
    (processIncremental cm fsys digest now files processor).result = cm.relationships
    ∧ (processIncremental cm fsys digest now files processor).processorCalls = [] := by
  constructor <;>
    simp [processIncremental, henabled, hch, hdel, getCachedRelationships, htruthy]

/-- Witness for the amended C1 at a concrete store (one cached unchanged
file, a stored truthy relationships blob). -/
theorem processIncremental_noop_fast_path_witness :
    (processIncremental
      { enabled := true
        metadata := [("a.js", { hash := "h", size := 3, mtime := 5, lastProcessed := 0 })]
        snapshot := []
        relationships := .jval 9 true }
      { stat := fun p => if p == "a.js" then some { mtime := 5, size := 3 } else none
        read := fun _ => some "x" }
      (fun s => s) 0 ["a.js"] (fun _ => JVal.jval 7 true)).result = .jval 9 true
    ∧ (processIncremental
      { enabled := true
        metadata := [("a.js", { hash := "h", size := 3, mtime := 5, lastProcessed := 0 })]
        snapshot := []
        relationships := .jval 9 true }
      { stat := fun p => if p == "a.js" then some { mtime := 5, size := 3 } else none
        read := fun _ => some "x" }
      (fun s => s) 0 ["a.js"] (fun _ => JVal.jval 7 true)).processorCalls = [] :=
  processIncremental_noop_fast_path
    { enabled := true
      metadata := [("a.js", { hash := "h", size := 3, mtime := 5, lastProcessed := 0 })]
      snapshot := []
      relationships := .jval 9 true }
    { stat := fun p => if p == "a.js" then some { mtime := 5, size := 3 } else none
      read := fun _ => some "x" }
    (fun s => s) 0 ["a.js"] (fun _ => JVal.jval 7 true)
    (by rfl) (by decide) (by decide) (by rfl)

/-- Claim C9 counterexample: with two watched roots A and B, a second
`stopWatching("A")` is not a no-op — root A is no longer in the watchers
map, so the call falls into the stop-all branch and destroys B's watcher
and timer as well. -/
theorem stopWatching_not_idempotent :
    stopWatching (stopWatching
        { watchers := [("A", 1), ("B", 2)], debounceTimers := [("A", 3), ("B", 4)] }
        (some "A")) (some "A") ≠
      stopWatching
        { watchers := [("A", 1), ("B", 2)], debounceTimers := [("A", 3), ("B", 4)] }
        (some "A")
    ∧ mapGet (stopWatching (stopWatching
        { watchers := [("A", 1), ("B", 2)], debounceTimers := [("A", 3), ("B", 4)] }
        (some "A")) (some "A")).watchers "B" = none
    ∧ mapGet (stopWatching
        { watchers := [("A", 1), ("B", 2)], debounceTimers := [("A", 3), ("B", 4)] }
        (some "A")).watchers "B" = some 2 := by
  refine ⟨by decide, by decide, by decide⟩

/-- Claim C9 (amended): `stopWatching` on a currently-watched root disposes
only that root's watcher and timer, leaving every other root's entries
unchanged; with no root it disposes everything, and the no-root call is
idempotent.  A repeated call with the same specific root, however, finds
the root absent and falls through to the stop-all branch, clearing every
remaining watcher and timer. -/
theorem stopWatching_behavior (w : WatcherMaps) (r : String)
    (hw : mapHas w.watchers r = true) :
    ((stopWatching w (some r)).watchers = mapDelete w.watchers r
      ∧ (stopWatching w (some r)).debounceTimers = mapDelete w.debounceTimers r
      ∧ ∀ r2, r2 ≠ r →
          mapGet (stopWatching w (some r)).watchers r2 = mapGet w.watchers r2
          ∧ mapGet (stopWatching w (some r)).debounceTimers r2 = mapGet w.debounceTimers r2)
    ∧ (∀ w2 : WatcherMaps, stopWatching w2 none = { watchers := [], debounceTimers := [] })
    ∧ (∀ w2 : WatcherMaps, stopWatching (stopWatching w2 none) none = stopWatching w2 none)
    ∧ (∀ (w2 : WatcherMaps) (r2 : String), mapHas w2.watchers r2 = false →
        stopWatching w2 (some r2) = { watchers := [], debounceTimers := [] }) := by
  refine ⟨⟨?_, ?_, ?_⟩, ?_, ?_, ?_⟩
  · simp [stopWatching, hw]
  · simp [stopWatching, hw]
  · intro r2 hr2
    constructor
    · simp only [stopWatching, hw, if_true]
      exact mapGet_mapDelete_ne w.watchers r r2 hr2
    · simp only [stopWatching, hw, if_true]
      exact mapGet_mapDelete_ne w.debounceTimers r r2 hr2
  · intro w2; rfl
  · intro w2; rfl
  · intro w2 r2 h2
    simp [stopWatching, h2]

/-- Witness for the amended C9: stopping root A of a concrete two-root
watcher removes A's entries and leaves B's watcher untouched. -/
theorem stopWatching_behavior_witness :
    mapGet (stopWatching
      { watchers := [("A", 1), ("B", 2)], debounceTimers := [("A", 3), ("B", 4)] }
      (some "A")).watchers "B" =
    mapGet ({ watchers := [("A", 1), ("B", 2)],
              debounceTimers := [("A", 3), ("B", 4)] } : WatcherMaps).watchers "B" :=
  ((stopWatching_behavior
    { watchers := [("A", 1), ("B", 2)], debounceTimers := [("A", 3), ("B", 4)] }
    "A" (by decide)).1.2.2 "B" (by decide)).1

end Dir2txt
